import Mathlib

/-!
Shallow embedding of the Pololu DRV8711 stepper-driver library
(src/DRV8711.h) and verification of its specification.

Machine integers are modelled as Nat with explicit reduction modulo the
width wherever the C++ code converts or truncates: an assignment to a
uint16_t field reduces modulo 65536, and passing an argument to a
uint8_t (resp. uint16_t) parameter reduces the argument modulo 256
(resp. 65536), which is the defined unsigned conversion of C++.
The SPI bus is modelled as the list of 16-bit words transmitted so far,
in order; DRV8711SPI::writeReg appends one word to that list.
-/

/-- Wire word produced by DRV8711SPI::writeReg: the source computes
(address << 12) | value in promoted int arithmetic and the result is
truncated to uint16_t when handed to transfer. -/
def writeRegWord (address value : Nat) : Nat :=
  ((address <<< 12) ||| value) % 65536

/-- Register address CTRL from the regAddr enum. -/
def CTRL : Nat := 0x00

/-- Register address TORQUE from the regAddr enum. -/
def TORQUE : Nat := 0x01

/-- Register address OFF from the regAddr enum. -/
def OFF : Nat := 0x02

/-- Register address BLANK from the regAddr enum. -/
def BLANK : Nat := 0x03

/-- Register address DECAY from the regAddr enum. -/
def DECAY : Nat := 0x04

/-- Register address STATUS from the regAddr enum. -/
def STATUS : Nat := 0x07

/-- State of a DRV8711 object: the six uint16_t shadow registers,
together with the list of 16-bit words transmitted on the SPI bus. -/
structure DRV8711 where
  ctrl : Nat
  torque : Nat
  off : Nat
  blank : Nat
  decay : Nat
  status : Nat
  wire : List Nat
deriving DecidableEq, Repr

/-- The default constructor DRV8711::DRV8711: every shadow register is
set to its power-on-reset value; no SPI transfer happens. -/
def DRV8711.construct : DRV8711 :=
  { ctrl := 0xC10, torque := 0x1FF, off := 0x30, blank := 0x80,
    decay := 0x110, status := 0x0, wire := [] }

/-- DRV8711SPI::writeReg acting on the model state: appends the wire
word for (address, value) to the transmission log. -/
def DRV8711.writeReg (s : DRV8711) (address value : Nat) : DRV8711 :=
  { s with wire := s.wire ++ [writeRegWord address value] }

/-- DRV8711::writeCTRL: writes the cached CTRL value to the device. -/
def DRV8711.writeCTRL (s : DRV8711) : DRV8711 := s.writeReg CTRL s.ctrl

/-- DRV8711::writeTORQUE: writes the cached TORQUE value to the device. -/
def DRV8711.writeTORQUE (s : DRV8711) : DRV8711 := s.writeReg TORQUE s.torque

/-- DRV8711::writeOFF: writes the cached OFF value to the device. -/
def DRV8711.writeOFF (s : DRV8711) : DRV8711 := s.writeReg OFF s.off

/-- DRV8711::enableDriver: ctrl |= 1; writeCTRL(). -/
def DRV8711.enableDriver (s : DRV8711) : DRV8711 :=
  ({ s with ctrl := (s.ctrl ||| 1) % 65536 }).writeCTRL

/-- DRV8711::disableDriver: ctrl &= 0; writeCTRL(). -/
def DRV8711.disableDriver (s : DRV8711) : DRV8711 :=
  ({ s with ctrl := (s.ctrl &&& 0) % 65536 }).writeCTRL

/-- DRV8711::flipDirection: ctrl = ctrl ^ (1 << 1); writeCTRL(). -/
def DRV8711.flipDirection (s : DRV8711) : DRV8711 :=
  ({ s with ctrl := (s.ctrl ^^^ (1 <<< 1)) % 65536 }).writeCTRL

/-- The switch statement of DRV8711::setStepMode: default 0b0010
(quarter step), cases in the order of Table 3 of the datasheet. -/
def stepModeCode (mode : Nat) : Nat :=
  if mode = 1 then 0b0000
  else if mode = 2 then 0b0001
  else if mode = 4 then 0b0010
  else if mode = 8 then 0b0011
  else if mode = 16 then 0b0100
  else if mode = 32 then 0b0101
  else if mode = 64 then 0b0110
  else if mode = 128 then 0b0111
  else if mode = 256 then 0b1000
  else 0b0010

/-- DRV8711::setStepMode: the parameter is uint16_t, so the caller's
argument is reduced modulo 65536 on entry. -/
def DRV8711.setStepMode (s : DRV8711) (mode : Nat) : DRV8711 :=
  ({ s with ctrl :=
      ((s.ctrl &&& 0b111110000111) ||| (stepModeCode (mode % 65536) <<< 3)) % 65536 }).writeCTRL

/-- The switch statement of DRV8711::setGain: default 0b10 (gain 20). -/
def gainCode (gain : Nat) : Nat :=
  if gain = 5 then 0b00
  else if gain = 10 then 0b01
  else if gain = 20 then 0b10
  else if gain = 40 then 0b11
  else 0b10

/-- DRV8711::setGain: the parameter is uint8_t, so the caller's argument
is reduced modulo 256 on entry. -/
def DRV8711.setGain (s : DRV8711) (gain : Nat) : DRV8711 :=
  ({ s with ctrl :=
      ((s.ctrl &&& 0b110011111111) ||| (gainCode (gain % 256) <<< 8)) % 65536 }).writeCTRL

/-- The switch statement of DRV8711::setDeadTime: default 0b11 (850 ns).
The case labels 400, 450, 650 and 850 are the values of the deadTime
enum, compared against the int-promoted parameter. -/
def deadTimeCode (dTime : Nat) : Nat :=
  if dTime = 400 then 0b00
  else if dTime = 450 then 0b01
  else if dTime = 650 then 0b10
  else if dTime = 850 then 0b11
  else 0b11

/-- DRV8711::setDeadTime: the parameter is uint8_t, so the caller's
argument is reduced modulo 256 on entry (in particular the enum values
400, 450, 650 and 850 truncate to 144, 194, 138 and 82).  The mask
0b110011111111 is the literal from the source. -/
def DRV8711.setDeadTime (s : DRV8711) (dTime : Nat) : DRV8711 :=
  ({ s with ctrl :=
      ((s.ctrl &&& 0b110011111111) ||| (deadTimeCode (dTime % 256) <<< 10)) % 65536 }).writeCTRL

/-- DRV8711::setTorque: the parameter is uint8_t, so the caller's
argument is reduced modulo 256 on entry. -/
def DRV8711.setTorque (s : DRV8711) (torqueValue : Nat) : DRV8711 :=
  ({ s with torque :=
      ((s.torque &&& 0b11100000000) ||| (torqueValue % 256)) % 65536 }).writeTORQUE

/-- DRV8711::setPWMMode: the pwmMode parameter is accepted but never
read; the body toggles bit 8 of the OFF shadow. -/
def DRV8711.setPWMMode (s : DRV8711) (pwmMode : Nat) : DRV8711 :=
  ({ s with off := (s.off ^^^ (1 <<< 8)) % 65536 }).writeOFF

/-! Helper lemmas about 16-bit arithmetic. -/

theorem or_lt_65536 {x y : Nat} (hx : x < 65536) (hy : y < 65536) : x ||| y < 65536 := by
  have e : (65536 : Nat) = 2 ^ 16 := by norm_num
  rw [e] at hx hy ⊢
  exact Nat.or_lt_two_pow hx hy

theorem xor_lt_65536 {x y : Nat} (hx : x < 65536) (hy : y < 65536) : x ^^^ y < 65536 := by
  have e : (65536 : Nat) = 2 ^ 16 := by norm_num
  rw [e] at hx hy ⊢
  exact Nat.xor_lt_two_pow hx hy

/-! Theorems about the specification claims. -/

/-- C8: a freshly constructed DRV8711 holds exactly the power-on-reset
defaults CTRL=0xC10, TORQUE=0x1FF, OFF=0x30, BLANK=0x80, DECAY=0x110,
STATUS=0x0 in its shadow registers, and no word has been transmitted. -/
theorem construct_defaults :
    DRV8711.construct.ctrl = 0xC10 ∧ DRV8711.construct.torque = 0x1FF ∧
    DRV8711.construct.off = 0x30 ∧ DRV8711.construct.blank = 0x80 ∧
    DRV8711.construct.decay = 0x110 ∧ DRV8711.construct.status = 0x0 ∧
    DRV8711.construct.wire = [] :=
  ⟨rfl, rfl, rfl, rfl, rfl, rfl, rfl⟩

/-- C2 counterexample: writeRegister(1, 0xE000) transmits 0xF000, not
(1 << 12) | (0xE000 & 0xFFF) = 0x1000, so the claimed wire word formula
with the value masked to 12 bits is false for values wider than 12 bits. -/
theorem writeRegWord_not_masked :
    ¬ (writeRegWord 1 0xE000 = ((1 <<< 12) ||| (0xE000 &&& 0xFFF))) := by
  decide

/-- C2 amended: for a register address below 8 and a 12-bit value,
writeRegister transmits exactly the word (address << 12) | (value & 0xFFF);
in particular writeRegister(TORQUE, 0x0FF) transmits exactly 0x10FF. -/
theorem writeReg_wire (s : DRV8711) (a v : Nat) (ha : a < 8) (hv : v < 4096) :
    (s.writeReg a v).wire = s.wire ++ [(a <<< 12) ||| (v &&& 0xFFF)] ∧
    writeRegWord TORQUE 0x0FF = 0x10FF := by
  have hmask : v &&& 0xFFF = v := by
    have e : (0xFFF : Nat) = 2 ^ 12 - 1 := by norm_num
    rw [e, Nat.and_pow_two_sub_one_eq_mod]
    exact Nat.mod_eq_of_lt (by omega)
  have hlt : (a <<< 12) ||| v < 65536 := by
    apply or_lt_65536 _ (by omega)
    rw [Nat.shiftLeft_eq]
    omega
  constructor
  · show s.wire ++ [writeRegWord a v] = _
    rw [hmask]
    unfold writeRegWord
    rw [Nat.mod_eq_of_lt hlt]
  · decide

/-- C2 witness: the amended claim evaluated at the byte-exact check from
the spec, writeRegister(TORQUE, 0x0FF) on a fresh device. -/
theorem writeReg_wire_witness :
    (DRV8711.construct.writeReg 1 0x0FF).wire =
      DRV8711.construct.wire ++ [(1 <<< 12) ||| (0x0FF &&& 0xFFF)] ∧
    writeRegWord TORQUE 0x0FF = 0x10FF :=
  writeReg_wire DRV8711.construct 1 0x0FF (by decide) (by decide)

/-- C3: enableDriver sets CTRL bit 0 while preserving bits 1 to 11
(from 0xC20 it yields 0xC21); disableDriver zeroes the entire CTRL
shadow; each call writes the new shadow value to the CTRL register. -/
theorem enable_disable_driver (s : DRV8711) (hc : s.ctrl < 65536) :
    (s.enableDriver).ctrl.testBit 0 = true ∧
    (∀ i, 1 ≤ i → i ≤ 11 → (s.enableDriver).ctrl.testBit i = s.ctrl.testBit i) ∧
    (({ DRV8711.construct with ctrl := 0xC20 } : DRV8711).enableDriver.ctrl = 0xC21) ∧
    (s.disableDriver).ctrl = 0 ∧
    (s.enableDriver).wire = s.wire ++ [writeRegWord CTRL (s.enableDriver).ctrl] ∧
    (s.disableDriver).wire = s.wire ++ [writeRegWord CTRL 0] := by
  have hen : (s.enableDriver).ctrl = s.ctrl ||| 1 := by
    show (s.ctrl ||| 1) % 65536 = _
    exact Nat.mod_eq_of_lt (or_lt_65536 hc (by omega))
  refine ⟨?_, ?_, by decide, ?_, rfl, ?_⟩
  · rw [hen]
    simp
  · intro i h1 h11
    rw [hen]
    have hb : Nat.testBit 1 i = false := by
      have e : (1 : Nat) = 2 ^ 0 := rfl
      rw [e]
      exact Nat.testBit_two_pow_of_ne (by omega)
    simp [Nat.testBit_or, hb]
  · show (s.ctrl &&& 0) % 65536 = 0
    simp
  · show s.wire ++ [writeRegWord CTRL ((s.ctrl &&& 0) % 65536)] = _
    simp

/-- C3 witness: the theorem applied to a fresh device. -/
theorem enable_disable_driver_witness :
    (DRV8711.construct.enableDriver).ctrl.testBit 0 = true ∧
    (DRV8711.construct.disableDriver).ctrl = 0 :=
  ⟨(enable_disable_driver DRV8711.construct (by decide)).1,
   (enable_disable_driver DRV8711.construct (by decide)).2.2.2.1⟩

/-- Every value the setStepMode switch can produce is below 16. -/
theorem stepModeCode_lt (x : Nat) : stepModeCode x < 16 := by
  unfold stepModeCode
  repeat' split
  all_goals norm_num

/-- C4: for a legal step mode m, setStepMode(m) sets CTRL bits [6:3] to
the datasheet code table entry and leaves every other bit of the 12-bit
CTRL register unchanged; for any m outside the legal set the resulting
state equals that of setStepMode(4). -/
theorem setStepMode_effect (s : DRV8711) (m : Nat) (hc : s.ctrl < 65536) (hm : m < 65536) :
    (stepModeCode 1 = 0b0000 ∧ stepModeCode 2 = 0b0001 ∧ stepModeCode 4 = 0b0010 ∧
     stepModeCode 8 = 0b0011 ∧ stepModeCode 16 = 0b0100 ∧ stepModeCode 32 = 0b0101 ∧
     stepModeCode 64 = 0b0110 ∧ stepModeCode 128 = 0b0111 ∧ stepModeCode 256 = 0b1000) ∧
    (((s.setStepMode m).ctrl >>> 3) &&& 0xF = stepModeCode m) ∧
    (∀ i, i ≤ 11 → (i < 3 ∨ 6 < i) → (s.setStepMode m).ctrl.testBit i = s.ctrl.testBit i) ∧
    (m ∉ ([1, 2, 4, 8, 16, 32, 64, 128, 256] : List Nat) → s.setStepMode m = s.setStepMode 4) := by
  have hmm : m % 65536 = m := Nat.mod_eq_of_lt hm
  have hsm : stepModeCode m < 16 := stepModeCode_lt m
  have hctrl : (s.setStepMode m).ctrl = (s.ctrl &&& 0xF87) ||| (stepModeCode m <<< 3) := by
    show ((s.ctrl &&& 0xF87) ||| (stepModeCode (m % 65536) <<< 3)) % 65536 = _
    rw [hmm]
    apply Nat.mod_eq_of_lt
    apply or_lt_65536 (lt_of_le_of_lt Nat.and_le_right (by norm_num))
    rw [Nat.shiftLeft_eq]
    omega
  refine ⟨by norm_num [stepModeCode], ?_, ?_, ?_⟩
  · rw [hctrl]
    apply Nat.eq_of_testBit_eq
    intro i
    simp only [Nat.testBit_and, Nat.testBit_shiftRight, Nat.testBit_or, Nat.testBit_shiftLeft]
    by_cases h4 : i < 4
    · interval_cases i <;> simp [Nat.testBit_to_div_mod]
    · have hp : (16 : Nat) ≤ 2 ^ i := by
        calc (16 : Nat) = 2 ^ 4 := by norm_num
        _ ≤ 2 ^ i := Nat.pow_le_pow_right (by norm_num) (by omega)
      have h15 : Nat.testBit 15 i = false := Nat.testBit_lt_two_pow (by omega)
      have hsmb : (stepModeCode m).testBit i = false := Nat.testBit_lt_two_pow (by omega)
      simp [h15, hsmb]
  · intro i h11 hout
    rw [hctrl]
    have e16 : stepModeCode m / 16 = 0 := Nat.div_eq_of_lt hsm
    have e32 : stepModeCode m / 32 = 0 := Nat.div_eq_of_lt (by omega)
    have e64 : stepModeCode m / 64 = 0 := Nat.div_eq_of_lt (by omega)
    have e128 : stepModeCode m / 128 = 0 := Nat.div_eq_of_lt (by omega)
    have e256 : stepModeCode m / 256 = 0 := Nat.div_eq_of_lt (by omega)
    simp only [Nat.testBit_or, Nat.testBit_and, Nat.testBit_shiftLeft]
    interval_cases i <;>
      first
        | omega
        | simp [Nat.testBit_to_div_mod, e16, e32, e64, e128, e256]
  · intro hnot
    simp only [List.mem_cons, List.not_mem_nil, or_false] at hnot
    push_neg at hnot
    obtain ⟨n1, n2, n4, n8, n16, n32, n64, n128, n256⟩ := hnot
    have hcode : stepModeCode (m % 65536) = 2 := by
      rw [hmm]
      simp [stepModeCode, n1, n2, n4, n8, n16, n32, n64, n128, n256]
    have h4c : stepModeCode (4 % 65536) = 2 := by decide
    unfold DRV8711.setStepMode
    rw [hcode, h4c]

/-- C4 witness: the general theorem applied at step mode 32 on a fresh
device, and at the illegal mode 999, which falls back to mode 4. -/
theorem setStepMode_effect_witness :
    ((DRV8711.construct.setStepMode 32).ctrl >>> 3) &&& 0xF = stepModeCode 32 ∧
    DRV8711.construct.setStepMode 999 = DRV8711.construct.setStepMode 4 :=
  ⟨(setStepMode_effect DRV8711.construct 32 (by decide) (by decide)).2.1,
   (setStepMode_effect DRV8711.construct 999 (by decide) (by decide)).2.2.2 (by decide)⟩

/-- Every value the setGain switch can produce is below 4. -/
theorem gainCode_lt (x : Nat) : gainCode x < 4 := by
  unfold gainCode
  repeat' split
  all_goals norm_num

/-- C5: for a gain g in {5,10,20,40}, setGain(g) sets CTRL bits [9:8] to
the 2-bit code for g and changes no other bit of the 12-bit CTRL
register; for any g outside that set the resulting state equals that of
setGain(20). -/
theorem setGain_effect (s : DRV8711) (g : Nat) (hc : s.ctrl < 65536) (hg : g < 256) :
    (gainCode 5 = 0b00 ∧ gainCode 10 = 0b01 ∧ gainCode 20 = 0b10 ∧ gainCode 40 = 0b11) ∧
    (((s.setGain g).ctrl >>> 8) &&& 0x3 = gainCode g) ∧
    (∀ i, i ≤ 11 → i ≠ 8 → i ≠ 9 → (s.setGain g).ctrl.testBit i = s.ctrl.testBit i) ∧
    (g ∉ ([5, 10, 20, 40] : List Nat) → s.setGain g = s.setGain 20) := by
  have hgg : g % 256 = g := Nat.mod_eq_of_lt hg
  have hag : gainCode g < 4 := gainCode_lt g
  have hctrl : (s.setGain g).ctrl = (s.ctrl &&& 0xCFF) ||| (gainCode g <<< 8) := by
    show ((s.ctrl &&& 0xCFF) ||| (gainCode (g % 256) <<< 8)) % 65536 = _
    rw [hgg]
    apply Nat.mod_eq_of_lt
    apply or_lt_65536 (lt_of_le_of_lt Nat.and_le_right (by norm_num))
    rw [Nat.shiftLeft_eq]
    omega
  refine ⟨by norm_num [gainCode], ?_, ?_, ?_⟩
  · rw [hctrl]
    apply Nat.eq_of_testBit_eq
    intro i
    simp only [Nat.testBit_and, Nat.testBit_shiftRight, Nat.testBit_or, Nat.testBit_shiftLeft]
    by_cases h2 : i < 2
    · interval_cases i <;> simp [Nat.testBit_to_div_mod]
    · have hp : (4 : Nat) ≤ 2 ^ i := by
        calc (4 : Nat) = 2 ^ 2 := by norm_num
        _ ≤ 2 ^ i := Nat.pow_le_pow_right (by norm_num) (by omega)
      have h3 : Nat.testBit 3 i = false := Nat.testBit_lt_two_pow (by omega)
      have hagb : (gainCode g).testBit i = false := Nat.testBit_lt_two_pow (by omega)
      simp [h3, hagb]
  · intro i h11 h8 h9
    rw [hctrl]
    have e4 : gainCode g / 4 = 0 := Nat.div_eq_of_lt (by omega)
    have e8 : gainCode g / 8 = 0 := Nat.div_eq_of_lt (by omega)
    simp only [Nat.testBit_or, Nat.testBit_and, Nat.testBit_shiftLeft]
    interval_cases i <;>
      first
        | omega
        | simp [Nat.testBit_to_div_mod, e4, e8]
  · intro hnot
    simp only [List.mem_cons, List.not_mem_nil, or_false] at hnot
    push_neg at hnot
    obtain ⟨n5, n10, n20, n40⟩ := hnot
    have hcode : gainCode (g % 256) = 2 := by
      rw [hgg]
      simp [gainCode, n5, n10, n20, n40]
    have h20c : gainCode (20 % 256) = 2 := by decide
    unfold DRV8711.setGain
    rw [hcode, h20c]

/-- C5 witness: the general theorem applied at gain 40 on a fresh
device, and at the invalid gain 7, which falls back to gain 20. -/
theorem setGain_effect_witness :
    ((DRV8711.construct.setGain 40).ctrl >>> 8) &&& 0x3 = gainCode 40 ∧
    DRV8711.construct.setGain 7 = DRV8711.construct.setGain 20 :=
  ⟨(setGain_effect DRV8711.construct 40 (by decide) (by decide)).2.1,
   (setGain_effect DRV8711.construct 7 (by decide) (by decide)).2.2.2 (by decide)⟩

/-- C6: setPWMMode never inspects its argument: any two argument values
yield the same resulting state from the same starting state; the call
toggles bit 8 of OFF (new OFF = old OFF xor 0x100), changes no other OFF
bit, and writes the new OFF shadow to the device. -/
theorem setPWMMode_effect (s : DRV8711) (m1 m2 : Nat) (ho : s.off < 65536) :
    s.setPWMMode m1 = s.setPWMMode m2 ∧
    (s.setPWMMode m1).off = s.off ^^^ 0x100 ∧
    ((s.setPWMMode m1).off.testBit 8 = !(s.off.testBit 8)) ∧
    (∀ i, i ≠ 8 → (s.setPWMMode m1).off.testBit i = s.off.testBit i) ∧
    (s.setPWMMode m1).wire = s.wire ++ [writeRegWord OFF (s.off ^^^ 0x100)] := by
  have hoff : (s.setPWMMode m1).off = s.off ^^^ 0x100 := by
    show (s.off ^^^ (1 <<< 8)) % 65536 = _
    exact Nat.mod_eq_of_lt (xor_lt_65536 ho (by decide))
  refine ⟨rfl, hoff, ?_, ?_, ?_⟩
  · rw [hoff]
    simp only [Nat.testBit_xor]
    simp [Nat.testBit_to_div_mod]
  · intro i hi
    rw [hoff]
    have hb : Nat.testBit 0x100 i = false := by
      rw [show (0x100 : Nat) = 2 ^ 8 by norm_num]
      exact Nat.testBit_two_pow_of_ne (Ne.symm hi)
    simp [Nat.testBit_xor, hb]
  · show s.wire ++ [writeRegWord OFF ((s.setPWMMode m1).off)] = _
    rw [hoff]

/-- C6 witness: the theorem applied on a fresh device with two different
argument values. -/
theorem setPWMMode_effect_witness :
    DRV8711.construct.setPWMMode 0 = DRV8711.construct.setPWMMode 77 ∧
    (DRV8711.construct.setPWMMode 0).off = DRV8711.construct.off ^^^ 0x100 :=
  ⟨(setPWMMode_effect DRV8711.construct 0 77 (by decide)).1,
   (setPWMMode_effect DRV8711.construct 0 77 (by decide)).2.1⟩

/-- C7: setTorque(v) sets TORQUE bits [7:0] to v, leaves TORQUE bits
[10:8] exactly as they were, and writes the new shadow to the TORQUE
register. -/
theorem setTorque_effect (s : DRV8711) (v : Nat) (hv : v < 256) (ht : s.torque < 65536) :
    (∀ i, i < 8 → (s.setTorque v).torque.testBit i = v.testBit i) ∧
    (∀ i, 8 ≤ i → i ≤ 10 → (s.setTorque v).torque.testBit i = s.torque.testBit i) ∧
    (s.setTorque v).wire = s.wire ++ [writeRegWord TORQUE (s.setTorque v).torque] := by
  have htq : (s.setTorque v).torque = (s.torque &&& 0x700) ||| v := by
    show ((s.torque &&& 0x700) ||| (v % 256)) % 65536 = _
    rw [Nat.mod_eq_of_lt hv]
    apply Nat.mod_eq_of_lt
    exact or_lt_65536 (lt_of_le_of_lt Nat.and_le_right (by norm_num)) (by omega)
  have e256 : v / 256 = 0 := Nat.div_eq_of_lt hv
  have e512 : v / 512 = 0 := Nat.div_eq_of_lt (by omega)
  have e1024 : v / 1024 = 0 := Nat.div_eq_of_lt (by omega)
  refine ⟨?_, ?_, rfl⟩
  · intro i hi
    rw [htq]
    simp only [Nat.testBit_or, Nat.testBit_and]
    interval_cases i <;> simp [Nat.testBit_to_div_mod]
  · intro i h8 h10
    rw [htq]
    simp only [Nat.testBit_or, Nat.testBit_and]
    interval_cases i <;> simp [Nat.testBit_to_div_mod, e256, e512, e1024]

/-- C7 witness: the theorem applied at v = 171 on a fresh device, with
the low-bit conclusion instantiated at bit 0. -/
theorem setTorque_effect_witness :
    (DRV8711.construct.setTorque 171).wire =
      DRV8711.construct.wire ++ [writeRegWord TORQUE (DRV8711.construct.setTorque 171).torque] ∧
    (DRV8711.construct.setTorque 171).torque.testBit 0 = (171 : Nat).testBit 0 :=
  ⟨(setTorque_effect DRV8711.construct 171 (by decide) (by decide)).2.2,
   (setTorque_effect DRV8711.construct 171 (by decide) (by decide)).1 0 (by decide)⟩

/-- C9: flipDirection twice restores CTRL bit 1, and setPWMMode twice
(with any arguments) restores OFF bit 8. -/
theorem toggle_involutions (s : DRV8711) (m1 m2 : Nat) (hc : s.ctrl < 65536) (ho : s.off < 65536) :
    (s.flipDirection.flipDirection).ctrl.testBit 1 = s.ctrl.testBit 1 ∧
    ((s.setPWMMode m1).setPWMMode m2).off.testBit 8 = s.off.testBit 8 := by
  have h1 : (s.flipDirection.flipDirection).ctrl = s.ctrl := by
    show (((s.ctrl ^^^ (1 <<< 1)) % 65536) ^^^ (1 <<< 1)) % 65536 = s.ctrl
    rw [Nat.mod_eq_of_lt (xor_lt_65536 hc (by decide)),
        Nat.xor_assoc, Nat.xor_self, Nat.xor_zero, Nat.mod_eq_of_lt hc]
  have h2 : ((s.setPWMMode m1).setPWMMode m2).off = s.off := by
    show (((s.off ^^^ (1 <<< 8)) % 65536) ^^^ (1 <<< 8)) % 65536 = s.off
    rw [Nat.mod_eq_of_lt (xor_lt_65536 ho (by decide)),
        Nat.xor_assoc, Nat.xor_self, Nat.xor_zero, Nat.mod_eq_of_lt ho]
  exact ⟨by rw [h1], by rw [h2]⟩

/-- C9 witness: the theorem applied on a fresh device. -/
theorem toggle_involutions_witness :
    (DRV8711.construct.flipDirection.flipDirection).ctrl.testBit 1 =
      DRV8711.construct.ctrl.testBit 1 ∧
    ((DRV8711.construct.setPWMMode 0).setPWMMode 5).off.testBit 8 =
      DRV8711.construct.off.testBit 8 :=
  toggle_involutions DRV8711.construct 0 5 (by decide) (by decide)

/-- For any byte value of the parameter, the setDeadTime switch takes
its default branch 0b11, because the uint8_t parameter can never equal
any of the int case labels 400, 450, 650, 850. -/
theorem deadTimeCode_byte (d : Nat) (hd : d < 256) : deadTimeCode d = 3 := by
  unfold deadTimeCode
  rw [if_neg (by omega), if_neg (by omega), if_neg (by omega), if_neg (by omega)]

/-- C10: for any byte input d, setDeadTime(d) zeroes CTRL bits [9:8]
(the ISGAIN field), sets bits [11:10] to the OR of their previous value
with the 2-bit dead-time code for d (which, for a byte input, is always
the default 0b11), and leaves bits [7:0] unchanged. -/
theorem setDeadTime_actual (s : DRV8711) (d : Nat) (hd : d < 256) (hc : s.ctrl < 65536) :
    ((s.setDeadTime d).ctrl.testBit 8 = false) ∧
    ((s.setDeadTime d).ctrl.testBit 9 = false) ∧
    ((s.setDeadTime d).ctrl.testBit 10 = (s.ctrl.testBit 10 || (deadTimeCode d).testBit 0)) ∧
    ((s.setDeadTime d).ctrl.testBit 11 = (s.ctrl.testBit 11 || (deadTimeCode d).testBit 1)) ∧
    (∀ i, i < 8 → (s.setDeadTime d).ctrl.testBit i = s.ctrl.testBit i) := by
  have hdc : deadTimeCode (d % 256) = 3 := deadTimeCode_byte _ (Nat.mod_lt _ (by omega))
  have hdd : deadTimeCode d = 3 := deadTimeCode_byte d hd
  have hctrl : (s.setDeadTime d).ctrl = (s.ctrl &&& 0xCFF) ||| 0xC00 := by
    show ((s.ctrl &&& 0xCFF) ||| (deadTimeCode (d % 256) <<< 10)) % 65536 = _
    rw [hdc, show ((3 : Nat) <<< 10) = 0xC00 from rfl]
    exact Nat.mod_eq_of_lt
      (or_lt_65536 (lt_of_le_of_lt Nat.and_le_right (by norm_num)) (by norm_num))
  rw [hctrl, hdd]
  refine ⟨?_, ?_, ?_, ?_, ?_⟩
  · simp only [Nat.testBit_or, Nat.testBit_and]
    simp [Nat.testBit_to_div_mod]
  · simp only [Nat.testBit_or, Nat.testBit_and]
    simp [Nat.testBit_to_div_mod]
  · simp only [Nat.testBit_or, Nat.testBit_and]
    simp [Nat.testBit_to_div_mod]
  · simp only [Nat.testBit_or, Nat.testBit_and]
    simp [Nat.testBit_to_div_mod]
  · intro i hi
    simp only [Nat.testBit_or, Nat.testBit_and]
    interval_cases i <;> simp [Nat.testBit_to_div_mod]

/-- C10 witness: the theorem applied at d = 0 on a fresh device, with
the low-bit conclusion instantiated at bit 4. -/
theorem setDeadTime_actual_witness :
    (DRV8711.construct.setDeadTime 0).ctrl.testBit 9 = false ∧
    (DRV8711.construct.setDeadTime 0).ctrl.testBit 4 = DRV8711.construct.ctrl.testBit 4 :=
  ⟨(setDeadTime_actual DRV8711.construct 0 (by decide) (by decide)).2.1,
   (setDeadTime_actual DRV8711.construct 0 (by decide) (by decide)).2.2.2.2 4 (by decide)⟩

/-- C1: evaluation of setDeadTime at the failing inputs.  With the CTRL
shadow holding 0x300 (ISGAIN bits [9:8] set, dead-time bits [11:10]
zero), the claim predicts CTRL = 0x300 after setDeadTime(400) (code
0b00 written to bits [11:10], nothing else touched) and CTRL = 0xF00
after setDeadTime(850); the code instead yields 0xC00 in both cases:
the uint8_t parameter truncates 400 and 850 so the switch always takes
its 850 default, and the mask 0b110011111111 clears the ISGAIN field
[9:8] instead of the dead-time field [11:10]. -/
theorem setDeadTime_divergence :
    (({ DRV8711.construct with ctrl := 0x300 } : DRV8711).setDeadTime 400).ctrl = 0xC00 ∧
    (({ DRV8711.construct with ctrl := 0x300 } : DRV8711).setDeadTime 850).ctrl = 0xC00 := by
  decide
